import Mathlib

/-!
Shallow embedding of src/src/chunk_type.rs (cryptpic).

The Rust module defines a value type ChunkType wrapping data : [u8; 4],
four case-based predicates, an always-succeeding TryFrom<[u8; 4]>
constructor, a validating FromStr parser over the UTF-8 bytes of the
input string, and a Display instance that decodes the stored bytes as
UTF-8 (unwrapping, i.e. faulting, on invalid UTF-8).

Bytes are modelled as Nat (a u8 value is in 0..=255; none of the
operations here overflow, they are only comparisons). A Rust string is
modelled by the list of its UTF-8 bytes, which is exactly what from_str
inspects via s.as_bytes(). Display is modelled as an Option-valued
UTF-8 decode: none corresponds to the unwrap panic.
-/

/-- The four stored bytes, data[0] .. data[3] of the Rust struct. -/
structure ChunkType where
  b0 : Nat
  b1 : Nat
  b2 : Nat
  b3 : Nat
deriving DecidableEq

/-- The error enum ChunkTypeError of the Rust module. -/
inductive ChunkTypeError where
  | byteLengthError (actual : Nat)
  | invalidCharacter
deriving DecidableEq

/-- Rust u8::is_ascii_uppercase: the byte is in b'A' ..= b'Z'. -/
def isAsciiUppercase (b : Nat) : Bool := 65 ≤ b && b ≤ 90

/-- Rust u8::is_ascii_lowercase: the byte is in b'a' ..= b'z'. -/
def isAsciiLowercase (b : Nat) : Bool := 97 ≤ b && b ≤ 122

/-- An ASCII letter: uppercase or lowercase. -/
def isAsciiLetter (b : Nat) : Bool := isAsciiUppercase b || isAsciiLowercase b

/-- ChunkType::is_critical: self.data[0].is_ascii_uppercase(). -/
def ChunkType.is_critical (c : ChunkType) : Bool := isAsciiUppercase c.b0

/-- ChunkType::is_public: self.data[1].is_ascii_uppercase(). -/
def ChunkType.is_public (c : ChunkType) : Bool := isAsciiUppercase c.b1

/-- ChunkType::is_reserved_bit_valid: self.data[2].is_ascii_uppercase(). -/
def ChunkType.is_reserved_bit_valid (c : ChunkType) : Bool := isAsciiUppercase c.b2

/-- ChunkType::is_valid: delegates to is_reserved_bit_valid. -/
def ChunkType.is_valid (c : ChunkType) : Bool := c.is_reserved_bit_valid

/-- ChunkType::is_safe_to_copy: self.data[3].is_ascii_lowercase(). -/
def ChunkType.is_safe_to_copy (c : ChunkType) : Bool := isAsciiLowercase c.b3

/-- ChunkType::bytes: returns the four stored bytes in order. -/
def ChunkType.bytes (c : ChunkType) : List Nat := [c.b0, c.b1, c.b2, c.b3]

/-- TryFrom<[u8; 4]> for ChunkType: Ok(Self { data: bytes }), never an error. -/
def ChunkType.try_from (b0 b1 b2 b3 : Nat) : Except ChunkTypeError ChunkType :=
  .ok ⟨b0, b1, b2, b3⟩

/-- The free function is_valid_chunk_ascii: every byte satisfies
(b >= b'a' && b <= b'z') || (b >= b'A' && b <= b'Z'). -/
def is_valid_chunk_ascii (x : List Nat) : Bool :=
  x.all (fun b => (97 ≤ b && b ≤ 122) || (65 ≤ b && b ≤ 90))

/-- FromStr for ChunkType over the UTF-8 bytes of the input: length check
first (ByteLengthError carrying the observed length), then the ASCII-letter
check (InvalidCharacter), then TryFrom on [bytes[0], bytes[1], bytes[2],
bytes[3]]. -/
def ChunkType.from_str (s : List Nat) : Except ChunkTypeError ChunkType :=
  if h : s.length = 4 then
    if is_valid_chunk_ascii s then
      ChunkType.try_from (s.get ⟨0, by omega⟩) (s.get ⟨1, by omega⟩)
        (s.get ⟨2, by omega⟩) (s.get ⟨3, by omega⟩)
    else .error .invalidCharacter
  else .error (.byteLengthError s.length)

/-- Whether a byte is a UTF-8 continuation byte, 0x80 ..= 0xBF. -/
def contByte (b : Nat) : Bool := 0x80 ≤ b && b ≤ 0xBF

/-- Allowed second byte of a 3-byte sequence led by b0 (restricted ranges
for 0xE0, overlong, and 0xED, surrogates). -/
def validSecondOfThree (b0 b1 : Nat) : Bool :=
  if b0 = 0xE0 then 0xA0 ≤ b1 && b1 ≤ 0xBF
  else if b0 = 0xED then 0x80 ≤ b1 && b1 ≤ 0x9F
  else contByte b1

/-- Allowed second byte of a 4-byte sequence led by b0 (restricted ranges
for 0xF0, overlong, and 0xF4, beyond U+10FFFF). -/
def validSecondOfFour (b0 b1 : Nat) : Bool :=
  if b0 = 0xF0 then 0x90 ≤ b1 && b1 ≤ 0xBF
  else if b0 = 0xF4 then 0x80 ≤ b1 && b1 ≤ 0x8F
  else contByte b1

/-- Decoding of one UTF-8 scalar from the front of a byte list (RFC 3629
well-formedness, as enforced by Rust str::from_utf8): the scalar value and
the remaining bytes, or none when the front is ill-formed. -/
def utf8DecodeOne : List Nat → Option (Nat × List Nat)
  | [] => none
  | b0 :: rest =>
    if b0 ≤ 0x7F then some (b0, rest)
    else if 0xC2 ≤ b0 && b0 ≤ 0xDF then
      match rest with
      | b1 :: rest1 =>
        if contByte b1 then some ((b0 - 0xC0) * 0x40 + (b1 - 0x80), rest1) else none
      | [] => none
    else if 0xE0 ≤ b0 && b0 ≤ 0xEF then
      match rest with
      | b1 :: b2 :: rest2 =>
        if validSecondOfThree b0 b1 && contByte b2 then
          some ((b0 - 0xE0) * 0x1000 + (b1 - 0x80) * 0x40 + (b2 - 0x80), rest2)
        else none
      | _ => none
    else if 0xF0 ≤ b0 && b0 ≤ 0xF4 then
      match rest with
      | b1 :: b2 :: b3 :: rest3 =>
        if validSecondOfFour b0 b1 && contByte b2 && contByte b3 then
          some ((b0 - 0xF0) * 0x40000 + (b1 - 0x80) * 0x1000 + (b2 - 0x80) * 0x40 + (b3 - 0x80),
            rest3)
        else none
      | _ => none
    else none

/-- Repeated scalar decoding; the Nat argument is an upper bound on the
number of scalars still possible (each scalar consumes at least one byte),
used only to make the recursion structural. utf8Decode below always
supplies the length of the list, which suffices: see utf8DecodeAux_fuel. -/
def utf8DecodeAux : Nat → List Nat → Option (List Nat)
  | _, [] => some []
  | 0, _ :: _ => none
  | fuel + 1, b0 :: rest =>
    match utf8DecodeOne (b0 :: rest) with
    | some (c, r) => (utf8DecodeAux fuel r).map (fun cs => c :: cs)
    | none => none

/-- UTF-8 decoding of a byte list into its scalar values: none mirrors the
Err case of str::from_utf8, on which Display's unwrap would panic. -/
def utf8Decode (l : List Nat) : Option (List Nat) := utf8DecodeAux l.length l

/-- Display for ChunkType: str::from_utf8(&self.data).unwrap(); some cs is
the successfully rendered text (as scalar values), none is the panic. -/
def ChunkType.to_text (c : ChunkType) : Option (List Nat) := utf8Decode c.bytes

/-- The derived Ord on ChunkType: field data compared as the [u8; 4] array,
i.e. element by element, first difference decides. -/
def ChunkType.cmp (x y : ChunkType) : Ordering :=
  (compare x.b0 y.b0).then
    ((compare x.b1 y.b1).then
      ((compare x.b2 y.b2).then (compare x.b3 y.b3)))

/-- Lexicographic comparison of byte sequences as unsigned values, written
from the wording of the spec (section 3, ordering) for the refinement
claim about the derived Ord. -/
def lexByteCompare : List Nat → List Nat → Ordering
  | [], [] => .eq
  | [], _ :: _ => .lt
  | _ :: _, [] => .gt
  | a :: ta, b :: tb => (compare a b).then (lexByteCompare ta tb)

/-! Helper lemmas shared by the claim theorems. -/

lemma ordering_then_eq (o : Ordering) : o.then .eq = o := by
  cases o <;> rfl

lemma length_eq_four_destruct {l : List Nat} (h : l.length = 4) :
    ∃ a b c d, l = [a, b, c, d] := by
  cases l with
  | nil => simp at h
  | cons a t0 =>
  cases t0 with
  | nil => simp at h
  | cons b t1 =>
  cases t1 with
  | nil => simp at h
  | cons c t2 =>
  cases t2 with
  | nil => simp at h
  | cons d t3 =>
  cases t3 with
  | nil => exact ⟨a, b, c, d, rfl⟩
  | cons e t4 => simp only [List.length_cons, List.length_nil] at h; omega

lemma is_valid_chunk_ascii_iff (s : List Nat) :
    is_valid_chunk_ascii s = true ↔ ∀ b ∈ s, isAsciiLetter b = true := by
  simp only [is_valid_chunk_ascii, List.all_eq_true, isAsciiLetter, isAsciiUppercase,
    isAsciiLowercase, Bool.or_eq_true, Bool.and_eq_true, decide_eq_true_eq]
  constructor <;> intro h b hb <;> have := h b hb <;> tauto

set_option maxRecDepth 4000 in
lemma utf8DecodeOne_shorter {l r : List Nat} {c : Nat}
    (h : utf8DecodeOne l = some (c, r)) : r.length < l.length := by
  cases l with
  | nil => simp [utf8DecodeOne] at h
  | cons b0 rest =>
    simp only [utf8DecodeOne] at h
    repeat' split at h
    all_goals cases h
    all_goals simp only [List.length_cons]
    all_goals omega

lemma utf8DecodeAux_fuel (f1 : Nat) : ∀ (f2 : Nat) (l : List Nat),
    l.length ≤ f1 → l.length ≤ f2 → utf8DecodeAux f1 l = utf8DecodeAux f2 l := by
  induction f1 with
  | zero =>
    intro f2 l h1 _
    cases l with
    | nil => cases f2 <;> rfl
    | cons b rest => simp at h1
  | succ n ih =>
    intro f2 l h1 h2
    cases l with
    | nil => cases f2 <;> rfl
    | cons b rest =>
      cases f2 with
      | zero => simp at h2
      | succ m =>
        rcases hE : utf8DecodeOne (b :: rest) with _ | ⟨c, r⟩
        · simp only [utf8DecodeAux, hE]
        · have hr := utf8DecodeOne_shorter hE
          simp only [List.length_cons] at h1 h2 hr
          simp only [utf8DecodeAux, hE]
          rw [ih m r (by omega) (by omega)]

lemma utf8DecodeOne_ascii (b : Nat) (rest : List Nat) (hb : b ≤ 127) :
    utf8DecodeOne (b :: rest) = some (b, rest) := by
  simp only [utf8DecodeOne]
  rw [if_pos (show b ≤ 0x7F from hb)]

lemma utf8Decode_ascii (l : List Nat) (h : ∀ b ∈ l, b ≤ 127) :
    utf8Decode l = some l := by
  rw [utf8Decode]
  suffices hgen : ∀ (fuel : Nat) (m : List Nat), m.length ≤ fuel →
      (∀ b ∈ m, b ≤ 127) → utf8DecodeAux fuel m = some m by
    exact hgen l.length l le_rfl h
  intro fuel
  induction fuel with
  | zero =>
    intro m hf _
    cases m with
    | nil => rfl
    | cons b rest => simp at hf
  | succ n ih =>
    intro m hf hm
    cases m with
    | nil => rfl
    | cons b rest =>
      have hb : b ≤ 127 := hm b (by simp)
      simp only [utf8DecodeAux, utf8DecodeOne_ascii b rest hb]
      rw [ih rest (by simp only [List.length_cons] at hf; omega)
        (fun x hx => hm x (by simp [hx]))]
      rfl

lemma upper_iff_bit5_clear (b : Nat) (h : isAsciiLetter b = true) :
    isAsciiUppercase b = true ↔ b &&& 32 = 0 := by
  have h1 : 65 ≤ b ∧ b ≤ 122 := by
    simp only [isAsciiLetter, isAsciiUppercase, isAsciiLowercase, Bool.or_eq_true,
      Bool.and_eq_true, decide_eq_true_eq] at h
    omega
  obtain ⟨h1, h2⟩ := h1
  revert h
  interval_cases b <;> decide

lemma lower_iff_bit5_set (b : Nat) (h : isAsciiLetter b = true) :
    isAsciiLowercase b = true ↔ b &&& 32 ≠ 0 := by
  have h1 : 65 ≤ b ∧ b ≤ 122 := by
    simp only [isAsciiLetter, isAsciiUppercase, isAsciiLowercase, Bool.or_eq_true,
      Bool.and_eq_true, decide_eq_true_eq] at h
    omega
  obtain ⟨h1, h2⟩ := h1
  revert h
  interval_cases b <;> decide

lemma nonletter_not_upper (b : Nat) (h : isAsciiLetter b = false) :
    isAsciiUppercase b = false := by
  simp only [isAsciiLetter, Bool.or_eq_false_iff] at h
  exact h.1

lemma nonletter_not_lower (b : Nat) (h : isAsciiLetter b = false) :
    isAsciiLowercase b = false := by
  simp only [isAsciiLetter, Bool.or_eq_false_iff] at h
  exact h.2

/-! The claim theorems. -/

/-- C1 counterexample: the identifier built from raw bytes [0, 0, 0, 0]
has bit 5 of byte 0 clear, yet is_critical is false, so the predicates
are not determined by bit 5 alone on arbitrary bytes. -/
theorem chunk_bit5_counterexample :
    ChunkType.try_from 0 0 0 0 = .ok ⟨0, 0, 0, 0⟩ ∧
    (0 : Nat) &&& 32 = 0 ∧
    (ChunkType.mk 0 0 0 0).is_critical = false :=
  ⟨rfl, by decide, by decide⟩

/-- C1 (amended): each predicate depends only on the byte at its own
position, independently of the other three bytes, and whenever a byte is
an ASCII letter the predicate at that position agrees with the stated
bit-5 test (clear for is_critical, is_public, is_reserved_bit_valid; set
for is_safe_to_copy). On non-letter bytes the predicates are case-range
checks, not bit-5 tests. -/
theorem chunk_predicate_case_amended (c : ChunkType) :
    (∀ d : ChunkType, d.b0 = c.b0 → d.is_critical = c.is_critical) ∧
    (∀ d : ChunkType, d.b1 = c.b1 → d.is_public = c.is_public) ∧
    (∀ d : ChunkType, d.b2 = c.b2 → d.is_reserved_bit_valid = c.is_reserved_bit_valid) ∧
    (∀ d : ChunkType, d.b3 = c.b3 → d.is_safe_to_copy = c.is_safe_to_copy) ∧
    (isAsciiLetter c.b0 = true → (c.is_critical = true ↔ c.b0 &&& 32 = 0)) ∧
    (isAsciiLetter c.b1 = true → (c.is_public = true ↔ c.b1 &&& 32 = 0)) ∧
    (isAsciiLetter c.b2 = true → (c.is_reserved_bit_valid = true ↔ c.b2 &&& 32 = 0)) ∧
    (isAsciiLetter c.b3 = true → (c.is_safe_to_copy = true ↔ c.b3 &&& 32 ≠ 0)) := by
  refine ⟨?_, ?_, ?_, ?_, ?_, ?_, ?_, ?_⟩
  · intro d hd; simp [ChunkType.is_critical, hd]
  · intro d hd; simp [ChunkType.is_public, hd]
  · intro d hd; simp [ChunkType.is_reserved_bit_valid, hd]
  · intro d hd; simp [ChunkType.is_safe_to_copy, hd]
  · exact fun h => upper_iff_bit5_clear c.b0 h
  · exact fun h => upper_iff_bit5_clear c.b1 h
  · exact fun h => upper_iff_bit5_clear c.b2 h
  · exact fun h => lower_iff_bit5_set c.b3 h

/-- C1 amended claim checked on the concrete identifier RuSt. -/
theorem chunk_predicate_case_amended_witness :
    (ChunkType.mk 82 117 83 116).is_critical = true ↔ (82 : Nat) &&& 32 = 0 :=
  (chunk_predicate_case_amended ⟨82, 117, 83, 116⟩).2.2.2.2.1 (by decide)

/-- C2: parsing any 4-byte token of ASCII letters succeeds, and rendering
the parsed identifier as text gives back exactly the input bytes. -/
theorem chunk_round_trip (s : List Nat) (h4 : s.length = 4)
    (hl : ∀ b ∈ s, isAsciiLetter b = true) :
    (ChunkType.from_str s).map ChunkType.to_text = .ok (some s) := by
  obtain ⟨a, b, c, d, rfl⟩ := length_eq_four_destruct h4
  have hv : is_valid_chunk_ascii [a, b, c, d] = true :=
    (is_valid_chunk_ascii_iff _).mpr hl
  have hascii : ∀ x ∈ [a, b, c, d], x ≤ 127 := by
    intro x hx
    have hx2 := hl x hx
    simp only [isAsciiLetter, isAsciiUppercase, isAsciiLowercase, Bool.or_eq_true,
      Bool.and_eq_true, decide_eq_true_eq] at hx2
    omega
  have hdec := utf8Decode_ascii [a, b, c, d] hascii
  simp only [ChunkType.from_str]
  rw [dif_pos h4, if_pos hv]
  simpa [ChunkType.try_from, ChunkType.to_text, ChunkType.bytes, Except.map] using hdec

/-- C2 checked on the concrete token RuSt. -/
theorem chunk_round_trip_witness :
    (ChunkType.from_str [82, 117, 83, 116]).map ChunkType.to_text =
      .ok (some [82, 117, 83, 116]) :=
  chunk_round_trip [82, 117, 83, 116] (by decide) (by decide)

/-- C3: parsing any token whose byte length is not 4 fails with the
length-mismatch error carrying the observed length, before any character
validation is attempted. -/
theorem chunk_length_mismatch (s : List Nat) (h : s.length ≠ 4) :
    ChunkType.from_str s = .error (.byteLengthError s.length) := by
  simp only [ChunkType.from_str]
  rw [dif_neg h]

/-- C3 checked on a 2-byte token that also contains non-letter bytes:
the length error still takes priority. -/
theorem chunk_length_mismatch_witness :
    ChunkType.from_str [49, 33] = .error (.byteLengthError 2) :=
  chunk_length_mismatch [49, 33] (by decide)

/-- C4: a 4-byte token with a non-letter byte fails with the
invalid-character error; a 4-byte token of only ASCII letters parses
successfully. -/
theorem chunk_character_validation (s : List Nat) (h4 : s.length = 4) :
    ((∃ b ∈ s, isAsciiLetter b = false) →
      ChunkType.from_str s = .error .invalidCharacter) ∧
    ((∀ b ∈ s, isAsciiLetter b = true) → ∃ c, ChunkType.from_str s = .ok c) := by
  constructor
  · intro hex
    have hv : ¬ is_valid_chunk_ascii s = true := by
      rw [is_valid_chunk_ascii_iff]
      rcases hex with ⟨b, hb, hf⟩
      intro hall
      rw [hall b hb] at hf
      cases hf
    simp only [ChunkType.from_str]
    rw [dif_pos h4, if_neg hv]
  · intro hall
    have hv : is_valid_chunk_ascii s = true := (is_valid_chunk_ascii_iff s).mpr hall
    simp only [ChunkType.from_str]
    rw [dif_pos h4, if_pos hv]
    exact ⟨_, rfl⟩

/-- C4 checked on the concrete token Ru1t, whose third byte 49 is a
digit, not a letter. -/
theorem chunk_character_validation_witness :
    ChunkType.from_str [82, 117, 49, 116] = .error .invalidCharacter :=
  (chunk_character_validation [82, 117, 49, 116] (by decide)).1
    ⟨49, by decide, by decide⟩

/-- C5: the raw-byte constructor never fails, for arbitrary byte values,
and bytes() returns exactly the bytes it was given, verbatim. -/
theorem chunk_try_from_verbatim (a b c d : Nat) :
    ChunkType.try_from a b c d = .ok ⟨a, b, c, d⟩ ∧
    (ChunkType.mk a b c d).bytes = [a, b, c, d] :=
  ⟨rfl, rfl⟩

/-- C6: is_valid returns exactly is_reserved_bit_valid on every
identifier; it is not an independent check. -/
theorem chunk_is_valid_eq_reserved (c : ChunkType) :
    c.is_valid = c.is_reserved_bit_valid := rfl

/-- C7: equality of identifiers is structural, equivalent to equality of
the 4-byte sequences, and the derived ordering is the lexicographic
comparison of the byte sequences as unsigned values. -/
theorem chunk_eq_ord_structural (x y : ChunkType) :
    (x = y ↔ x.bytes = y.bytes) ∧ x.cmp y = lexByteCompare x.bytes y.bytes := by
  obtain ⟨a, b, c, d⟩ := x
  obtain ⟨a2, b2, c2, d2⟩ := y
  constructor
  · simp [ChunkType.bytes, ChunkType.mk.injEq, List.cons.injEq]
  · simp only [ChunkType.cmp, ChunkType.bytes, lexByteCompare, ordering_then_eq]

/-- C8: the concrete scenario for the token RuSt: parse succeeds with
bytes [82, 117, 83, 116], the five predicates have the documented values,
and the text rendering gives back RuSt. -/
theorem chunk_rust_scenario :
    ChunkType.from_str [82, 117, 83, 116] = .ok ⟨82, 117, 83, 116⟩ ∧
    (ChunkType.mk 82 117 83 116).bytes = [82, 117, 83, 116] ∧
    (ChunkType.mk 82 117 83 116).is_critical = true ∧
    (ChunkType.mk 82 117 83 116).is_public = false ∧
    (ChunkType.mk 82 117 83 116).is_reserved_bit_valid = true ∧
    (ChunkType.mk 82 117 83 116).is_valid = true ∧
    (ChunkType.mk 82 117 83 116).is_safe_to_copy = true ∧
    (ChunkType.mk 82 117 83 116).to_text = some [82, 117, 83, 116] :=
  ⟨rfl, rfl, by decide, by decide, by decide, by decide, by decide, rfl⟩

/-- C9: text rendering never faults on an identifier whose four bytes are
ASCII (at most 127), letters or not: it returns exactly those bytes as
the rendered scalar values. -/
theorem chunk_to_text_ascii_total (c : ChunkType) (h : ∀ b ∈ c.bytes, b ≤ 127) :
    c.to_text = some c.bytes :=
  utf8Decode_ascii c.bytes h

/-- C9 checked on an identifier of digits and punctuation, reachable only
through the raw-byte constructor. -/
theorem chunk_to_text_ascii_total_witness :
    (ChunkType.mk 48 49 33 126).to_text = some [48, 49, 33, 126] :=
  chunk_to_text_ascii_total ⟨48, 49, 33, 126⟩ (by decide)

/-- C10: every byte array yields an identifier through the raw
constructor, the four predicates are total on it, and at a position whose
byte is not an ASCII letter the predicate of that position is false. -/
theorem chunk_predicates_nonletter_false (c : ChunkType) :
    ChunkType.try_from c.b0 c.b1 c.b2 c.b3 = .ok c ∧
    (isAsciiLetter c.b0 = false → c.is_critical = false) ∧
    (isAsciiLetter c.b1 = false → c.is_public = false) ∧
    (isAsciiLetter c.b2 = false → c.is_reserved_bit_valid = false) ∧
    (isAsciiLetter c.b3 = false → c.is_safe_to_copy = false) := by
  refine ⟨rfl, ?_, ?_, ?_, ?_⟩
  · exact fun h => nonletter_not_upper c.b0 h
  · exact fun h => nonletter_not_upper c.b1 h
  · exact fun h => nonletter_not_upper c.b2 h
  · exact fun h => nonletter_not_lower c.b3 h

/-- C10 checked on the all-digit identifier built from bytes
[48, 49, 50, 51]. -/
theorem chunk_predicates_nonletter_false_witness :
    (ChunkType.mk 48 49 50 51).is_critical = false :=
  (chunk_predicates_nonletter_false ⟨48, 49, 50, 51⟩).2.1 (by decide)
